import Mathlib

/-
  Verification development for the APEX Kalshi trading bot.

  Shallow embedding of the core components:
  - src/src/api/auth.py      (request signing, auth headers)
  - src/src/api/client.py    (RateLimiter, KalshiClient._request retry loop)
  - src/src/api/models.py    (OrderRequest, TradeSignal, payload serialization)
  - src/src/risk/manager.py  (DailyPnL, RiskManager)
  - src/main.py              (run_trading_cycle)

  Python floats are embedded as exact rationals (ℚ), Python ints as ℤ/ℕ.
  Python int() truncation toward zero is pyInt below.
-/

/-- Python int() applied to a rational: truncation toward zero. -/
def pyInt (q : ℚ) : ℤ :=
  if 0 ≤ q then ⌊q⌋ else ⌈q⌉

/- ===================== src/api/models.py ===================== -/

inductive OrderSide where
  | yes
  | no
deriving DecidableEq, Repr

/-- OrderSide.value, the string payload value from models.py. -/
def OrderSide.value : OrderSide → String
  | .yes => "yes"
  | .no => "no"

inductive OrderAction where
  | buy
  | sell
deriving DecidableEq, Repr

def OrderAction.value : OrderAction → String
  | .buy => "buy"
  | .sell => "sell"

inductive OrderType where
  | limit
  | market
deriving DecidableEq, Repr

def OrderType.value : OrderType → String
  | .limit => "limit"
  | .market => "market"

/-- TradeSignal from src/api/models.py (fields the core logic reads). -/
structure TradeSignal where
  ticker : String
  side : OrderSide
  action : OrderAction
  confidence : ℚ
  estimated_probability : ℚ
  market_probability : ℚ
  expected_value : ℚ
  strategy_name : String
  reasoning : String
  suggested_price : Option ℤ := none
deriving DecidableEq, Repr

/-- OrderRequest from src/api/models.py. -/
structure OrderRequest where
  ticker : String
  side : OrderSide
  action : OrderAction
  count : ℤ
  order_type : OrderType := .limit
  yes_price : Option ℤ := none
  no_price : Option ℤ := none
  client_order_id : String := ""
  time_in_force : String := "gtc"
  buy_max_cost : Option ℤ := none
  post_only : Bool := false
deriving DecidableEq, Repr

/-- A JSON-ish value appearing in the order payload dict. -/
inductive PVal where
  | s (v : String)
  | i (v : ℤ)
  | b (v : Bool)
deriving DecidableEq, Repr

/-- OrderRequest.to_api_payload: the payload dict as an ordered key/value list,
keys inserted in the source order; optional keys present iff the source's
truthiness/None checks pass. -/
def OrderRequest.to_api_payload (o : OrderRequest) : List (String × PVal) :=
  [("ticker", PVal.s o.ticker),
   ("side", PVal.s o.side.value),
   ("action", PVal.s o.action.value),
   ("count", PVal.i o.count),
   ("type", PVal.s o.order_type.value)]
  ++ (match o.yes_price with
      | some p => [("yes_price", PVal.i p)]
      | none => [])
  ++ (match o.no_price with
      | some p => [("no_price", PVal.i p)]
      | none => [])
  ++ (if o.client_order_id ≠ "" then [("client_order_id", PVal.s o.client_order_id)] else [])
  ++ (if o.time_in_force ≠ "" then [("time_in_force", PVal.s o.time_in_force)] else [])
  ++ (match o.buy_max_cost with
      | some c => [("buy_max_cost", PVal.i c)]
      | none => [])
  ++ (if o.post_only then [("post_only", PVal.b true)] else [])

/-- Number of occurrences of a key in a payload dict. -/
def payloadKeyCount (l : List (String × PVal)) (k : String) : ℕ :=
  (l.filter (fun kv => kv.1 = k)).length

/- ===================== src/risk/manager.py ===================== -/

/-- DailyPnL dataclass. -/
structure DailyPnL where
  date : String := ""
  realized_pnl : ℚ := 0
  unrealized_pnl : ℚ := 0
  trades_count : ℕ := 0
  wins : ℕ := 0
  losses : ℕ := 0
deriving DecidableEq, Repr

/-- DailyPnL.total_pnl property. -/
def DailyPnL.total_pnl (d : DailyPnL) : ℚ :=
  d.realized_pnl + d.unrealized_pnl

/-- DailyPnL.win_rate property. -/
def DailyPnL.win_rate (d : DailyPnL) : ℚ :=
  if d.trades_count = 0 then 0 else (d.wins : ℚ) / (d.trades_count : ℚ)

/-- One recorded trade in RiskManager._trades_today. -/
structure TradeRecord where
  ticker : String
  cost : ℚ
  pnl : ℚ
deriving DecidableEq, Repr

/-- RiskManager state. The Python dict self._open_positions is embedded as an
insertion-ordered association list with dict update semantics. -/
structure RiskManager where
  max_daily_loss : ℚ := 50
  max_position_size : ℤ := 100
  max_trade_cost : ℚ := 25
  max_portfolio_exposure_pct : ℚ := 20
  kelly_fraction : ℚ := 1/2
  daily_pnl : DailyPnL := {}
  open_positions : List (String × ℚ) := []
  trades_today : List TradeRecord := []
deriving DecidableEq, Repr

/-- dict.get(ticker, default 0) on the open-positions map. -/
def posGet (l : List (String × ℚ)) (k : String) : ℚ :=
  match l with
  | [] => 0
  | (k0, v) :: rest => if k0 = k then v else posGet rest k

/-- dict[ticker] = v on the open-positions map (update in place, else append). -/
def posSet (l : List (String × ℚ)) (k : String) (v : ℚ) : List (String × ℚ) :=
  match l with
  | [] => [(k, v)]
  | (k0, v0) :: rest => if k0 = k then (k0, v) :: rest else (k0, v0) :: posSet rest k v

/-- dict.pop(ticker, None) on the open-positions map. -/
def posRemove (l : List (String × ℚ)) (k : String) : List (String × ℚ) :=
  match l with
  | [] => []
  | (k0, v0) :: rest => if k0 = k then rest else (k0, v0) :: posRemove rest k

/-- sum(self._open_positions.values()). -/
def posSum (l : List (String × ℚ)) : ℚ :=
  (l.map Prod.snd).sum

/-- RiskManager.__init__ with an initial current UTC date string. -/
def RiskManager.init (maxDailyLoss : ℚ) (maxPositionSize : ℤ) (maxTradeCost : ℚ)
    (maxPortfolioExposurePct : ℚ) (kellyFraction : ℚ) (today : String) : RiskManager :=
  { max_daily_loss := maxDailyLoss
    max_position_size := maxPositionSize
    max_trade_cost := maxTradeCost
    max_portfolio_exposure_pct := maxPortfolioExposurePct
    kelly_fraction := kellyFraction
    daily_pnl := { date := today }
    open_positions := []
    trades_today := [] }

/-- RiskManager._reset_daily_if_needed, with the current UTC date passed
explicitly (the embedded clock). -/
def RiskManager.reset_daily_if_needed (rm : RiskManager) (today : String) : RiskManager :=
  if rm.daily_pnl.date ≠ today then
    { rm with daily_pnl := { date := today }, trades_today := [] }
  else
    rm

/-- RiskManager.kelly_criterion. -/
def RiskManager.kelly_criterion (rm : RiskManager) (probability odds_decimal : ℚ) : ℚ :=
  if probability ≤ 0 ∨ 1 ≤ probability ∨ odds_decimal ≤ 0 then 0
  else
    max 0 ((probability * odds_decimal - (1 - probability)) / odds_decimal) * rm.kelly_fraction

/-- RiskManager.calculate_position_size. Returns the post-rollover state and
the integer size. -/
def RiskManager.calculate_position_size (rm0 : RiskManager) (today : String)
    (signal : TradeSignal) (balance : ℚ) (cost_per_contract_cents : ℤ) :
    RiskManager × ℤ :=
  let rm := rm0.reset_daily_if_needed today
  if cost_per_contract_cents ≤ 0 ∨ balance ≤ 0 then (rm, 0)
  else
    let cost_per_contract : ℚ := (cost_per_contract_cents : ℚ) / 100
    let payout : ℚ := 1
    let profit_if_win := payout - cost_per_contract
    if profit_if_win ≤ 0 then (rm, 0)
    else
      let odds := profit_if_win / cost_per_contract
      let kelly_frac := rm.kelly_criterion signal.estimated_probability odds
      let kelly_amount := balance * kelly_frac
      let max_from_kelly := if 0 < cost_per_contract then pyInt (kelly_amount / cost_per_contract) else 0
      let max_from_position := rm.max_position_size
      let max_from_cost := if 0 < cost_per_contract then pyInt (rm.max_trade_cost / cost_per_contract) else 0
      let current_exposure := posSum rm.open_positions
      let max_exposure := balance * (rm.max_portfolio_exposure_pct / 100)
      let remaining_exposure := max 0 (max_exposure - current_exposure)
      let max_from_exposure := if 0 < cost_per_contract then pyInt (remaining_exposure / cost_per_contract) else 0
      let remaining_daily := max 0 (rm.max_daily_loss - |min 0 rm.daily_pnl.total_pnl|)
      let max_from_daily := if 0 < cost_per_contract then pyInt (remaining_daily / cost_per_contract) else 0
      let size := min (min (min (min max_from_kelly max_from_position) max_from_cost) max_from_exposure) max_from_daily
      (rm, max 0 size)

/-- RiskManager.validate_trade. The reason string is the static text of the
source's message (the source appends formatted numbers after it). -/
def RiskManager.validate_trade (rm0 : RiskManager) (today : String) (signal : TradeSignal)
    (balance : ℚ) (min_confidence : ℚ) (min_ev : ℚ) : RiskManager × Bool × String :=
  let rm := rm0.reset_daily_if_needed today
  if rm.daily_pnl.total_pnl ≤ -rm.max_daily_loss then
    (rm, false, "Daily loss limit reached")
  else if signal.confidence < min_confidence then
    (rm, false, "Confidence too low")
  else if signal.expected_value < min_ev then
    (rm, false, "Expected value too low")
  else if balance ≤ 0 then
    (rm, false, "Insufficient balance")
  else if posSum rm.open_positions ≥ balance * (rm.max_portfolio_exposure_pct / 100) then
    (rm, false, "Portfolio exposure limit reached")
  else
    (rm, true, "Trade approved")

/-- The cost-per-contract derivation at the top of RiskManager.build_order.
Python's `signal.suggested_price or int(...)` falls through on None and on 0. -/
def orderCostCents (signal : TradeSignal) : ℤ :=
  let derived : ℤ :=
    match signal.side with
    | .yes => pyInt (signal.market_probability * 100)
    | .no => pyInt ((1 - signal.market_probability) * 100)
  match signal.suggested_price with
  | some p => if p ≠ 0 then p else derived
  | none => derived

/-- RiskManager.build_order. -/
def RiskManager.build_order (rm0 : RiskManager) (today : String) (signal : TradeSignal)
    (balance : ℚ) : RiskManager × Option OrderRequest :=
  let cost_cents := orderCostCents signal
  if cost_cents ≤ 0 ∨ 100 ≤ cost_cents then (rm0, none)
  else
    let res := rm0.calculate_position_size today signal balance cost_cents
    let rm := res.1
    let count := res.2
    if count ≤ 0 then (rm, none)
    else
      (rm, some
        { ticker := signal.ticker
          side := signal.side
          action := signal.action
          count := count
          order_type := .limit
          yes_price := if signal.side = .yes then some cost_cents else none
          no_price := if signal.side = .no then some cost_cents else none
          client_order_id := ""
          time_in_force := "gtc"
          buy_max_cost := none
          post_only := true })

/-- RiskManager.record_trade. -/
def RiskManager.record_trade (rm0 : RiskManager) (today : String) (ticker : String)
    (cost_dollars : ℚ) (pnl : ℚ) : RiskManager :=
  let rm := rm0.reset_daily_if_needed today
  let d := rm.daily_pnl
  let d1 := { d with
    trades_count := d.trades_count + 1
    realized_pnl := d.realized_pnl + pnl
    wins := if 0 < pnl then d.wins + 1 else d.wins
    losses := if pnl < 0 then d.losses + 1 else d.losses }
  { rm with
    daily_pnl := d1
    open_positions := posSet rm.open_positions ticker (posGet rm.open_positions ticker + cost_dollars)
    trades_today := rm.trades_today ++ [{ ticker := ticker, cost := cost_dollars, pnl := pnl }] }

/-- RiskManager.update_position. -/
def RiskManager.update_position (rm : RiskManager) (ticker : String)
    (exposure_dollars : ℚ) : RiskManager :=
  if exposure_dollars ≤ 0 then
    { rm with open_positions := posRemove rm.open_positions ticker }
  else
    { rm with open_positions := posSet rm.open_positions ticker exposure_dollars }

/-- The dict returned by RiskManager.get_daily_summary. -/
structure DailySummary where
  date : String
  realized_pnl : ℚ
  trades_count : ℕ
  win_rate : ℚ
  total_exposure : ℚ
  open_positions : ℕ
  remaining_daily_loss_budget : ℚ
deriving DecidableEq, Repr

/-- RiskManager.get_daily_summary. -/
def RiskManager.get_daily_summary (rm0 : RiskManager) (today : String) :
    RiskManager × DailySummary :=
  let rm := rm0.reset_daily_if_needed today
  (rm,
   { date := rm.daily_pnl.date
     realized_pnl := rm.daily_pnl.realized_pnl
     trades_count := rm.daily_pnl.trades_count
     win_rate := rm.daily_pnl.win_rate
     total_exposure := posSum rm.open_positions
     open_positions := rm.open_positions.length
     remaining_daily_loss_budget := rm.max_daily_loss + rm.daily_pnl.total_pnl })

/- ===================== src/api/auth.py ===================== -/

/-- path.split("?")[0] in sign_request. -/
def stripQuery (path : String) : String :=
  (path.splitOn "?").headD ""

/-- The message signed by sign_request: timestamp_ms + method + path-without-query.
RSA-PSS signing is probabilistic; a signature is embedded by the message it
verifiably signs, which is the content verification depends on. -/
def signedMessage (timestamp_ms : ℕ) (method path : String) : String :=
  toString timestamp_ms ++ method ++ stripQuery path

/-- The header dict built by get_auth_headers. -/
structure AuthHeaders where
  access_key : String
  access_signature : String
  access_timestamp : ℕ
  content_type : String
deriving DecidableEq, Repr

/-- get_auth_headers: timestamp taken from the clock at the moment of the call. -/
def get_auth_headers (api_key : String) (now_ms : ℕ) (method path : String) : AuthHeaders :=
  { access_key := api_key
    access_signature := signedMessage now_ms (method.toUpper) path
    access_timestamp := now_ms
    content_type := "application/json" }

/-- Headers attached to an outbound HTTP attempt: signed, or the bare
Content-Type dict of the unauthenticated branch. -/
inductive Headers where
  | auth (h : AuthHeaders)
  | plain
deriving DecidableEq, Repr

/-- Timestamp carried by the headers of an attempt (none when unauthenticated). -/
def Headers.timestamp : Headers → Option ℕ
  | .auth h => some h.access_timestamp
  | .plain => none

/- ===================== src/api/client.py ===================== -/

/-- RateLimiter state: max_per_second, tokens, last_refill (monotonic seconds). -/
structure RateLimiter where
  max_per_second : ℚ
  tokens : ℚ
  last_refill : ℚ
deriving DecidableEq, Repr

/-- RateLimiter.__init__. -/
def RateLimiter.init (max_per_second : ℚ) (now : ℚ) : RateLimiter :=
  { max_per_second := max_per_second, tokens := max_per_second, last_refill := now }

/-- The refill step at the top of each RateLimiter.acquire loop iteration. -/
def RateLimiter.refill (b : RateLimiter) (now : ℚ) : RateLimiter :=
  { b with
    tokens := min b.max_per_second (b.tokens + (now - b.last_refill) * b.max_per_second)
    last_refill := now }

/-- RateLimiter.acquire, entered at wall-clock time now. The while loop is
unrolled with fuel; each sleep advances the clock by exactly the computed
duration (ideal time.sleep, the single-threaded reference behavior).
Returns (state after return, total time slept) or none if fuel runs out. -/
def RateLimiter.acquireAux : ℕ → RateLimiter → ℚ → Option (RateLimiter × ℚ)
  | 0, _, _ => none
  | fuel + 1, b, now =>
    let b1 := b.refill now
    if 1 ≤ b1.tokens then
      some ({ b1 with tokens := b1.tokens - 1 }, 0)
    else
      let sleep_time := (1 - b1.tokens) / b1.max_per_second
      match RateLimiter.acquireAux fuel b1 (now + sleep_time) with
      | some (b2, slept) => some (b2, sleep_time + slept)
      | none => none

/-- RateLimiter.acquire. Two loop iterations always suffice (proved below),
so fuel 2 is the loop. -/
def RateLimiter.acquire (b : RateLimiter) (now : ℚ) : Option (RateLimiter × ℚ) :=
  RateLimiter.acquireAux 2 b now

/-- A sequence of n back-to-back acquire calls at one instant (the burst
pattern of the spec's token-bucket property), accumulating slept time. -/
def acquireSeq : ℕ → RateLimiter → ℚ → Option (RateLimiter × ℚ)
  | 0, b, _ => some (b, 0)
  | n + 1, b, now =>
    Option.bind (b.acquire now) (fun p =>
      Option.bind (acquireSeq n p.1 now) (fun q => some (q.1, p.2 + q.2)))

/-- Outcome of one HTTP attempt inside KalshiClient._request: a response with
a status code, or a requests.ConnectionError/requests.Timeout. -/
inductive AttemptOutcome where
  | http (status : ℕ)
  | connError
deriving DecidableEq, Repr

/-- How KalshiClient._request terminates. -/
inductive RequestResult where
  | success (status : ℕ)
  | apiError (status : ℕ)
  | connFailure
  | maxRetriesError
deriving DecidableEq, Repr

/-- Observable run of the retry loop: final result, total backoff slept, and
the headers dict passed to session.request on each attempt, in order. -/
structure RequestRun where
  result : RequestResult
  totalSleep : ℚ
  headersSent : List Headers
deriving DecidableEq, Repr

/-- self._max_retries. -/
def client_max_retries : ℕ := 3

/-- self._base_backoff (0.5 seconds). -/
def client_base_backoff : ℚ := 1/2

/-- The retry loop of KalshiClient._request. headers is the dict built once
before the loop; outcomes gives the result of each attempt by index. fuel is
the number of remaining iterations of `for attempt in range(max_retries)`,
attempt the current index, hasConn whether last_exception was captured. -/
def requestAttempts (base : ℚ) (headers : Headers) (outcomes : ℕ → AttemptOutcome) :
    ℕ → ℕ → Bool → ℚ → List Headers → RequestRun
  | 0, _, hasConn, acc, sent =>
    { result := if hasConn then .connFailure else .maxRetriesError
      totalSleep := acc
      headersSent := sent }
  | fuel + 1, attempt, hasConn, acc, sent =>
    let sent1 := sent ++ [headers]
    match outcomes attempt with
    | .connError =>
      requestAttempts base headers outcomes fuel (attempt + 1) true (acc + base * 2 ^ attempt) sent1
    | .http status =>
      if status = 429 then
        requestAttempts base headers outcomes fuel (attempt + 1) hasConn (acc + base * 2 ^ attempt) sent1
      else if 400 ≤ status then
        { result := .apiError status, totalSleep := acc, headersSent := sent1 }
      else
        { result := .success status, totalSleep := acc, headersSent := sent1 }

/-- KalshiClient._request: builds headers once (from the clock at build time),
then runs the retry loop, passing the same headers dict to every attempt. -/
def kalshiRequest (api_key : String) (hasPrivateKey : Bool) (authenticated : Bool)
    (build_time_ms : ℕ) (method path : String) (outcomes : ℕ → AttemptOutcome) : RequestRun :=
  let headers : Headers :=
    if authenticated ∧ hasPrivateKey then
      .auth (get_auth_headers api_key build_time_ms method ("/trade-api/v2" ++ path))
    else
      .plain
  requestAttempts client_base_backoff headers outcomes client_max_retries 0 false 0 []

/- ===================== src/main.py run_trading_cycle ===================== -/

/-- The exchange-status payload fields read by run_trading_cycle. -/
structure ExchangeStatus where
  exchange_active : Bool
  trading_active : Bool
deriving DecidableEq, Repr

/-- Result of one strategy.run() call: its signals, or a raised exception
(caught and isolated by the cycle). -/
inductive StratResult where
  | ok (signals : List TradeSignal)
  | failed
deriving DecidableEq, Repr

/-- Outcome of one live order submission block (create_order, record_trade,
get_balance): the submission raised; or it succeeded and the balance refresh
returned b; or it succeeded and the balance refresh raised. -/
inductive SubmitOutcome where
  | fail
  | okBal (newBalance : ℚ)
  | okNoBal
deriving DecidableEq, Repr

/-- External environment of one run_trading_cycle call. statusR/balanceR are
none when the corresponding client call raises KalshiAPIError. -/
structure CycleEnv where
  statusR : Option ExchangeStatus
  balanceR : Option ℚ
  strategyResults : List StratResult
  submits : List SubmitOutcome
  dry_run : Bool
  min_confidence : ℚ
  min_expected_value : ℚ
  today : String

/-- A call into the RiskManager made by the cycle (the trace instruments the
call sites in main.py). -/
inductive RMCall where
  | validateCall
  | buildCall
  | recordCall
deriving DecidableEq, Repr

/-- Observable result of one cycle: trades_executed, final RiskManager state,
and the trace of RiskManager invocations. -/
structure CycleResult where
  trades : ℕ
  rm : RiskManager
  rmTrace : List RMCall
deriving Repr

/-- Gathering of all_signals across strategies, isolating failures. -/
def collectSignals (rs : List StratResult) : List TradeSignal :=
  rs.foldl
    (fun acc r =>
      match r with
      | .ok signals => acc ++ signals
      | .failed => acc)
    []

/-- Stable insertion into a list sorted by expected value descending. -/
def insertByEVDesc (s : TradeSignal) : List TradeSignal → List TradeSignal
  | [] => [s]
  | t :: rest =>
    if t.expected_value < s.expected_value then s :: t :: rest
    else t :: insertByEVDesc s rest

/-- all_signals.sort(key=expected_value, reverse=True) — a stable descending
sort, like Python's. -/
def sortByEVDesc (l : List TradeSignal) : List TradeSignal :=
  l.foldr insertByEVDesc []

/-- order.yes_price or order.no_price or 0 (Python or: None and 0 are falsy). -/
def orderPriceOr (o : OrderRequest) : ℤ :=
  match o.yes_price with
  | some p => if p ≠ 0 then p else
      match o.no_price with
      | some q => if q ≠ 0 then q else 0
      | none => 0
  | none =>
      match o.no_price with
      | some q => if q ≠ 0 then q else 0
      | none => 0

/-- The per-signal validate/build/execute loop of run_trading_cycle. -/
def processSignals (env : CycleEnv) :
    List TradeSignal → RiskManager → ℚ → Bool → List SubmitOutcome → ℕ → List RMCall →
    CycleResult
  | [], rm, _, _, _, trades, trace => { trades := trades, rm := rm, rmTrace := trace }
  | sig :: rest, rm, balance, scan_only, subs, trades, trace =>
    if scan_only then
      processSignals env rest rm balance scan_only subs (trades + 1) trace
    else
      let v := rm.validate_trade env.today sig balance env.min_confidence env.min_expected_value
      let rm1 := v.1
      let trace1 := trace ++ [RMCall.validateCall]
      if v.2.1 = false then
        processSignals env rest rm1 balance scan_only subs trades trace1
      else
        let b := rm1.build_order env.today sig balance
        let rm2 := b.1
        let trace2 := trace1 ++ [RMCall.buildCall]
        match b.2 with
        | none => processSignals env rest rm2 balance scan_only subs trades trace2
        | some o =>
          if env.dry_run then
            processSignals env rest rm2 balance scan_only subs (trades + 1) trace2
          else
            match subs with
            | [] =>
              processSignals env rest rm2 balance scan_only [] trades trace2
            | outcome :: subs1 =>
              match outcome with
              | .fail =>
                processSignals env rest rm2 balance scan_only subs1 trades trace2
              | .okNoBal =>
                let cost := ((orderPriceOr o : ℚ) * (o.count : ℚ)) / 100
                let rm3 := rm2.record_trade env.today o.ticker cost 0
                processSignals env rest rm3 balance scan_only subs1 (trades + 1)
                  (trace2 ++ [RMCall.recordCall])
              | .okBal newBalance =>
                let cost := ((orderPriceOr o : ℚ) * (o.count : ℚ)) / 100
                let rm3 := rm2.record_trade env.today o.ticker cost 0
                processSignals env rest rm3 newBalance scan_only subs1 (trades + 1)
                  (trace2 ++ [RMCall.recordCall])

/-- run_trading_cycle after the exchange-status step, with scan_only already
adjusted by that step. -/
def cycleAfterStatus (env : CycleEnv) (rm0 : RiskManager) (scan_only : Bool) : CycleResult :=
  let bs : ℚ × Bool :=
    match env.balanceR with
    | some b => (b, scan_only)
    | none => (0, true)
  let all_signals := collectSignals env.strategyResults
  if all_signals.isEmpty then { trades := 0, rm := rm0, rmTrace := [] }
  else processSignals env (sortByEVDesc all_signals) rm0 bs.1 bs.2 env.submits 0 []

/-- run_trading_cycle from main.py. -/
def run_trading_cycle (env : CycleEnv) (rm0 : RiskManager) (scan_only : Bool) : CycleResult :=
  match env.statusR with
  | some st =>
    if st.exchange_active = false then { trades := 0, rm := rm0, rmTrace := [] }
    else cycleAfterStatus env rm0 (if st.trading_active = false then true else scan_only)
  | none => cycleAfterStatus env rm0 scan_only

/- ===================== spec-side definitions ===================== -/

/-- The spec's kellyFraction(p, b) (§4.4), written from the spec's words:
max(0, (p·b − (1−p))/b) × kellyFractionConfig for p∈(0,1), b>0, else 0. -/
def kellyFraction_spec (kf p b : ℚ) : ℚ :=
  if 0 < p ∧ p < 1 ∧ 0 < b then max 0 ((p * b - (1 - p)) / b) * kf else 0

/-- The spec's sizePosition (§4.4), written from the spec's words: the minimum
of the five bounds (a)–(e), floored to an integer ≥ 0, with non-positive
cost-per-contract or balance short-circuiting to 0. -/
def sizePosition_spec (rm : RiskManager) (signal : TradeSignal) (balance : ℚ)
    (costPerContractCents : ℤ) : ℤ :=
  if costPerContractCents ≤ 0 ∨ balance ≤ 0 then 0
  else
    let cost : ℚ := (costPerContractCents : ℚ) / 100
    let odds := (1 - cost) / cost
    let boundKelly := ⌊balance * kellyFraction_spec rm.kelly_fraction signal.estimated_probability odds / cost⌋
    let boundPosition := rm.max_position_size
    let boundCost := ⌊rm.max_trade_cost / cost⌋
    let boundExposure := ⌊max 0 (balance * (rm.max_portfolio_exposure_pct / 100) - posSum rm.open_positions) / cost⌋
    let boundDaily := ⌊(rm.max_daily_loss - max 0 (-rm.daily_pnl.realized_pnl)) / cost⌋
    max 0 (min (min (min (min boundKelly boundPosition) boundCost) boundExposure) boundDaily)

/-- The ledger scenario of the spec's §8 daily-ledger property: two trades of
cost $10 with pnl −10 each, recorded on 2026-02-10. -/
def ledgerExampleRM : RiskManager :=
  ((RiskManager.init 50 100 25 20 (1/2) "2026-02-10").record_trade
      "2026-02-10" "T1" 10 (-10)).record_trade "2026-02-10" "T2" 10 (-10)

/-- Whether string s begins with p, computed over the character lists. -/
def stringLeadsWith (s p : String) : Bool :=
  decide (s.toList.take p.toList.length = p.toList)

/-- The signal of the spec's §8 sizing example: estProb 0.70. -/
def sizingExampleSignal : TradeSignal :=
  { ticker := "KXHIGHNY-26FEB11-B45"
    side := .yes
    action := .buy
    confidence := 8/10
    estimated_probability := 7/10
    market_probability := 1/2
    expected_value := 15/100
    strategy_name := "Test"
    reasoning := "Test"
    suggested_price := none }

/-- A signal used to witness the confidence rejection of C6. -/
def lowConfidenceSignal : TradeSignal :=
  { ticker := "TEST"
    side := .yes
    action := .buy
    confidence := 3/10
    estimated_probability := 55/100
    market_probability := 1/2
    expected_value := 1/10
    strategy_name := "Test"
    reasoning := "Test"
    suggested_price := none }

/-- The NO-side signal of the spec's §8 payload round-trip example:
no-price 60¢. -/
def noSideSignal : TradeSignal :=
  { ticker := "T"
    side := .no
    action := .buy
    confidence := 8/10
    estimated_probability := 7/10
    market_probability := 4/10
    expected_value := 15/100
    strategy_name := "s"
    reasoning := "r"
    suggested_price := some 60 }

/-- The outcome schedule of an authenticated request whose first attempt is
rate-limited and whose second succeeds. -/
def oneRateLimitThenOk : ℕ → AttemptOutcome :=
  fun i => if i = 0 then .http 429 else .http 200

/-- Outcome schedule [429, 429, 200]. -/
def twoRateLimitsThenOk : ℕ → AttemptOutcome :=
  fun i => if i < 2 then .http 429 else .http 200

/-- Outcome schedule of endless 429s. -/
def alwaysRateLimited : ℕ → AttemptOutcome :=
  fun _ => .http 429

/-- Outcome schedule of a connection error then success. -/
def oneConnErrorThenOk : ℕ → AttemptOutcome :=
  fun i => if i = 0 then .connError else .http 200

/-- Outcome schedule of endless connection errors. -/
def alwaysConnError : ℕ → AttemptOutcome :=
  fun _ => .connError

/-- Operations through which RiskManager state is ever touched (the class's
public methods, with the embedded clock as an argument). -/
inductive RMOp where
  | calcSize (today : String) (signal : TradeSignal) (balance : ℚ) (cents : ℤ)
  | validate (today : String) (signal : TradeSignal) (balance min_confidence min_ev : ℚ)
  | build (today : String) (signal : TradeSignal) (balance : ℚ)
  | record (today ticker : String) (cost pnl : ℚ)
  | updatePos (ticker : String) (exposure : ℚ)
  | summary (today : String)

/-- The state transition of one RiskManager method call. -/
def RMOp.apply (rm : RiskManager) : RMOp → RiskManager
  | .calcSize t sg b c => (rm.calculate_position_size t sg b c).1
  | .validate t sg b mc me => (rm.validate_trade t sg b mc me).1
  | .build t sg b => (rm.build_order t sg b).1
  | .record t tk c p => rm.record_trade t tk c p
  | .updatePos tk e => rm.update_position tk e
  | .summary t => (rm.get_daily_summary t).1

/-- A signal collected by the first strategy of the witness cycle. -/
def cycleSignalA : TradeSignal :=
  { ticker := "A"
    side := .yes
    action := .buy
    confidence := 6/10
    estimated_probability := 6/10
    market_probability := 1/2
    expected_value := 1/10
    strategy_name := "s1"
    reasoning := "r1"
    suggested_price := none }

/-- A signal collected by the third strategy of the witness cycle. -/
def cycleSignalB : TradeSignal :=
  { ticker := "B"
    side := .no
    action := .buy
    confidence := 7/10
    estimated_probability := 3/10
    market_probability := 4/10
    expected_value := 2/10
    strategy_name := "s2"
    reasoning := "r2"
    suggested_price := none }

/-- A cycle environment: exchange active, balance fetch failing, two signals
across three strategies (one failing). -/
def scanCycleEnv : CycleEnv :=
  { statusR := some { exchange_active := true, trading_active := true }
    balanceR := none
    strategyResults := [.ok [cycleSignalA], .failed, .ok [cycleSignalB]]
    submits := []
    dry_run := false
    min_confidence := 55/100
    min_expected_value := 5/100
    today := "2026-02-10" }

/- ===================== helper lemmas ===================== -/

theorem pyInt_of_nonneg {q : ℚ} (h : 0 ≤ q) : pyInt q = ⌊q⌋ := by
  simp [pyInt, h]

theorem kelly_criterion_nonneg (rm : RiskManager) (p b : ℚ) (hkf : 0 ≤ rm.kelly_fraction) :
    0 ≤ rm.kelly_criterion p b := by
  unfold RiskManager.kelly_criterion
  split_ifs with h
  · exact le_refl 0
  · exact mul_nonneg (le_max_left 0 _) hkf

theorem reset_daily_of_eq (rm : RiskManager) (today : String)
    (h : rm.daily_pnl.date = today) : rm.reset_daily_if_needed today = rm := by
  simp [RiskManager.reset_daily_if_needed, h]

theorem kellyFraction_spec_eq (rm : RiskManager) (p b : ℚ) :
    kellyFraction_spec rm.kelly_fraction p b = rm.kelly_criterion p b := by
  unfold kellyFraction_spec RiskManager.kelly_criterion
  split_ifs with h1 h2 h3
  · obtain ⟨hp0, hp1, hb⟩ := h1
    rcases h2 with h | h | h <;> linarith
  · rfl
  · rfl
  · exfalso
    push_neg at h3
    obtain ⟨hp0, hp1, hb⟩ := h3
    exact h1 ⟨hp0, hp1, hb⟩

theorem abs_min_zero_eq (x : ℚ) : |min 0 x| = max 0 (-x) := by
  rcases le_total 0 x with h | h
  · rw [min_eq_left h, abs_zero, max_eq_left (by linarith)]
  · rw [min_eq_right h, abs_of_nonpos h, max_eq_right (by linarith)]

theorem max0_min5_of_first_nonpos (A B C D E : ℤ) (hA : A ≤ 0) :
    max 0 (min (min (min (min A B) C) D) E) = 0 := by
  apply max_eq_left
  calc min (min (min (min A B) C) D) E
      ≤ min (min (min A B) C) D := min_le_left _ _
    _ ≤ min (min A B) C := min_le_left _ _
    _ ≤ min A B := min_le_left _ _
    _ ≤ A := min_le_left _ _
    _ ≤ 0 := hA

theorem max0_min5_congr (A B C D E1 E2 : ℤ)
    (h : E1 = E2 ∨ (E1 ≤ 0 ∧ E2 ≤ 0)) :
    max 0 (min (min (min (min A B) C) D) E1) =
    max 0 (min (min (min (min A B) C) D) E2) := by
  rcases h with h | ⟨h1, h2⟩
  · rw [h]
  · rw [max_eq_left (le_trans (min_le_right _ _) h1),
      max_eq_left (le_trans (min_le_right _ _) h2)]

/- ===================== claims ===================== -/

/-- C5: for p ∈ (0,1) and b > 0, kelly_criterion(p, b) equals
max(0, (p·b − (1−p))/b) × kelly_fraction — hence (for a positive configured
fraction) it is ≥ 0 and equals 0 exactly when p ≤ 1/(1+b) — and for every
input outside that domain (p ≤ 0, p ≥ 1, or b ≤ 0) it returns 0. -/
theorem c5_kelly_criterion :
    (∀ (rm : RiskManager) (p b : ℚ), 0 < p → p < 1 → 0 < b →
      rm.kelly_criterion p b = max 0 ((p * b - (1 - p)) / b) * rm.kelly_fraction ∧
      (0 < rm.kelly_fraction →
        0 ≤ rm.kelly_criterion p b ∧
        (rm.kelly_criterion p b = 0 ↔ p ≤ 1 / (1 + b)))) ∧
    (∀ (rm : RiskManager) (p b : ℚ), p ≤ 0 ∨ 1 ≤ p ∨ b ≤ 0 →
      rm.kelly_criterion p b = 0) := by
  constructor
  · intro rm p b hp0 hp1 hb
    have hcond : ¬(p ≤ 0 ∨ 1 ≤ p ∨ b ≤ 0) := by
      push_neg
      exact ⟨hp0, hp1, hb⟩
    have heq : rm.kelly_criterion p b = max 0 ((p * b - (1 - p)) / b) * rm.kelly_fraction := by
      unfold RiskManager.kelly_criterion
      rw [if_neg hcond]
    refine ⟨heq, fun hkf => ⟨kelly_criterion_nonneg rm p b (le_of_lt hkf), ?_⟩⟩
    rw [heq]
    have h1b : (0:ℚ) < 1 + b := by linarith
    have key : (p * b - (1 - p)) / b ≤ 0 ↔ p ≤ 1 / (1 + b) := by
      rw [div_le_iff₀ hb, zero_mul, le_div_iff₀ h1b]
      constructor <;> intro h <;> nlinarith
    constructor
    · intro h
      rcases mul_eq_zero.mp h with h0 | h0
      · exact key.mp (max_eq_left_iff.mp h0)
      · exact absurd h0 (ne_of_gt hkf)
    · intro h
      rw [max_eq_left (key.mpr h), zero_mul]
  · intro rm p b h
    unfold RiskManager.kelly_criterion
    rw [if_pos h]

/-- Witness for C5: the spec's own numeric examples — kelly(0.6, 1) with
half-Kelly is 0.10, and kelly(0.3, 1) is 0 (p = 0.3 ≤ 1/(1+1)). -/
theorem c5_kelly_criterion_witness :
    ({ kelly_fraction := 1/2 } : RiskManager).kelly_criterion (6/10) 1 = 1/10 ∧
    ({ kelly_fraction := 1/2 } : RiskManager).kelly_criterion (3/10) 1 = 0 := by
  constructor
  · rw [(c5_kelly_criterion.1 { kelly_fraction := 1/2 } (6/10) 1
      (by norm_num) (by norm_num) (by norm_num)).1]
    norm_num
  · exact ((c5_kelly_criterion.1 { kelly_fraction := 1/2 } (3/10) 1
      (by norm_num) (by norm_num) (by norm_num)).2 (by norm_num)).2.mpr (by norm_num)

/-- C4: the daily rollover is lazy and happens exactly once — a first access
with the ledger's date equal to the current UTC date is a no-op, a first
access on a different date replaces the ledger by a zeroed one carrying the
new date while leaving the open-exposure map unchanged, and the rollover is
idempotent; concretely, after two trades with pnl −10 each (realized −20,
2 trades) a next-day summary reports realized 0, 0 trades, and the untouched
exposure map summing to $20. -/
theorem c4_daily_rollover (rm : RiskManager) (today : String) :
    (rm.daily_pnl.date = today → rm.reset_daily_if_needed today = rm) ∧
    (rm.daily_pnl.date ≠ today →
      (rm.reset_daily_if_needed today).daily_pnl =
        { date := today, realized_pnl := 0, unrealized_pnl := 0,
          trades_count := 0, wins := 0, losses := 0 } ∧
      (rm.reset_daily_if_needed today).open_positions = rm.open_positions) ∧
    ((rm.reset_daily_if_needed today).reset_daily_if_needed today =
      rm.reset_daily_if_needed today) ∧
    (ledgerExampleRM.daily_pnl.realized_pnl = -20 ∧
     ledgerExampleRM.daily_pnl.trades_count = 2 ∧
     (ledgerExampleRM.get_daily_summary "2026-02-11").2.realized_pnl = 0 ∧
     (ledgerExampleRM.get_daily_summary "2026-02-11").2.trades_count = 0 ∧
     (ledgerExampleRM.get_daily_summary "2026-02-11").1.open_positions =
       ledgerExampleRM.open_positions ∧
     (ledgerExampleRM.get_daily_summary "2026-02-11").2.total_exposure = 20) := by
  have hconcrete :
      ledgerExampleRM.daily_pnl.realized_pnl = -20 ∧
      ledgerExampleRM.daily_pnl.trades_count = 2 ∧
      (ledgerExampleRM.get_daily_summary "2026-02-11").2.realized_pnl = 0 ∧
      (ledgerExampleRM.get_daily_summary "2026-02-11").2.trades_count = 0 ∧
      (ledgerExampleRM.get_daily_summary "2026-02-11").1.open_positions =
        ledgerExampleRM.open_positions ∧
      (ledgerExampleRM.get_daily_summary "2026-02-11").2.total_exposure = 20 := by
    have h1 : ("2026-02-10" : String) ≠ "2026-02-11" := by decide
    have h2 : ("T1" : String) ≠ "T2" := by decide
    norm_num [ledgerExampleRM, RiskManager.init, RiskManager.record_trade,
      RiskManager.get_daily_summary, RiskManager.reset_daily_if_needed,
      DailyPnL.total_pnl, DailyPnL.win_rate, posSum, posGet, posSet, h1, h2]
  refine ⟨fun h => reset_daily_of_eq rm today h, fun h => ?_, ?_, hconcrete⟩
  · constructor <;> simp [RiskManager.reset_daily_if_needed, h]
  · by_cases h : rm.daily_pnl.date = today
    · rw [reset_daily_of_eq rm today h, reset_daily_of_eq rm today h]
    · have hdate : (rm.reset_daily_if_needed today).daily_pnl.date = today := by
        simp [RiskManager.reset_daily_if_needed, h]
      exact reset_daily_of_eq _ today hdate

/-- Witness for C4: the rollover clauses applied at the concrete ledger
scenario (its date 2026-02-10 differs from 2026-02-11). -/
theorem c4_daily_rollover_witness :
    (ledgerExampleRM.reset_daily_if_needed "2026-02-11").daily_pnl =
      { date := "2026-02-11", realized_pnl := 0, unrealized_pnl := 0,
        trades_count := 0, wins := 0, losses := 0 } ∧
    (ledgerExampleRM.reset_daily_if_needed "2026-02-11").open_positions =
      ledgerExampleRM.open_positions := by
  refine (c4_daily_rollover ledgerExampleRM "2026-02-11").2.1 ?_
  show ledgerExampleRM.daily_pnl.date ≠ "2026-02-11"
  have h2 : ("T1" : String) ≠ "T2" := by decide
  simp [ledgerExampleRM, RiskManager.init, RiskManager.record_trade,
    RiskManager.reset_daily_if_needed, posSet, posGet, h2]

/-- C6: on a state whose ledger is current (no rollover interference) and
whose unrealized P&L is 0 (an invariant of the class, claim C10),
validate_trade rejects exactly when one of the five conditions holds, in the
source's order, and the confidence / expected-value rejections carry reasons
starting with "Confidence" / "Expected value" whenever the daily-loss check
passed, regardless of the remaining fields. -/
theorem c6_validate_trade (rm : RiskManager) (today : String) (signal : TradeSignal)
    (balance min_confidence min_ev : ℚ)
    (hdate : rm.daily_pnl.date = today)
    (hunreal : rm.daily_pnl.unrealized_pnl = 0) :
    ((rm.validate_trade today signal balance min_confidence min_ev).2.1 = false ↔
      (rm.daily_pnl.realized_pnl ≤ -rm.max_daily_loss ∨
       signal.confidence < min_confidence ∨
       signal.expected_value < min_ev ∨
       balance ≤ 0 ∨
       posSum rm.open_positions ≥ balance * (rm.max_portfolio_exposure_pct / 100))) ∧
    (-rm.max_daily_loss < rm.daily_pnl.realized_pnl →
      signal.confidence < min_confidence →
      stringLeadsWith
        ((rm.validate_trade today signal balance min_confidence min_ev).2.2)
        "Confidence" = true) ∧
    (-rm.max_daily_loss < rm.daily_pnl.realized_pnl →
      min_confidence ≤ signal.confidence →
      signal.expected_value < min_ev →
      stringLeadsWith
        ((rm.validate_trade today signal balance min_confidence min_ev).2.2)
        "Expected value" = true) := by
  have htotal : rm.daily_pnl.total_pnl = rm.daily_pnl.realized_pnl := by
    rw [DailyPnL.total_pnl, hunreal, add_zero]
  simp only [RiskManager.validate_trade, reset_daily_of_eq rm today hdate]
  rw [htotal]
  refine ⟨?_, ?_, ?_⟩
  · split_ifs with h1 h2 h3 h4 h5
    · simp [h1]
    · simp [h2]
    · simp [h3]
    · simp [h4]
    · simp [h5]
    · simp only [Bool.true_eq_false, false_iff]
      push_neg
      exact ⟨not_le.mp h1, not_lt.mp h2, not_lt.mp h3, not_le.mp h4, not_le.mp h5⟩
  · intro hdl hconf
    rw [if_neg (not_le.mpr hdl), if_pos hconf]
    show stringLeadsWith "Confidence too low" "Confidence" = true
    decide
  · intro hdl hconf hev
    rw [if_neg (not_le.mpr hdl), if_neg (not_lt.mpr hconf), if_pos hev]
    show stringLeadsWith "Expected value too low" "Expected value" = true
    decide

/-- C2: on a current-ledger state with the configuration invariants
(unrealized 0, nonnegative Kelly fraction and max trade cost),
calculate_position_size returns exactly the spec's formula — the minimum of
the five bounds floored to an integer ≥ 0 — with non-positive cost or balance
short-circuiting to 0; and the spec's concrete example sizes to 50. -/
theorem c2_position_sizing (rm : RiskManager) (today : String) (signal : TradeSignal)
    (balance : ℚ) (cents : ℤ)
    (hdate : rm.daily_pnl.date = today)
    (hunreal : rm.daily_pnl.unrealized_pnl = 0)
    (hkf : 0 ≤ rm.kelly_fraction)
    (htc : 0 ≤ rm.max_trade_cost) :
    (rm.calculate_position_size today signal balance cents).2 =
      sizePosition_spec rm signal balance cents ∧
    (cents ≤ 0 ∨ balance ≤ 0 →
      (rm.calculate_position_size today signal balance cents).2 = 0) ∧
    ((RiskManager.init 50 100 25 20 (1/2) "2026-10-12").calculate_position_size
        "2026-10-12" sizingExampleSignal 1000 50).2 = 50 := by
  have hconcrete :
      ((RiskManager.init 50 100 25 20 (1/2) "2026-10-12").calculate_position_size
        "2026-10-12" sizingExampleSignal 1000 50).2 = 50 := by
    norm_num [RiskManager.calculate_position_size, RiskManager.reset_daily_if_needed,
      RiskManager.init, RiskManager.kelly_criterion, pyInt, posSum, DailyPnL.total_pnl,
      sizingExampleSignal]
  have htotal : rm.daily_pnl.total_pnl = rm.daily_pnl.realized_pnl := by
    rw [DailyPnL.total_pnl, hunreal, add_zero]
  have hshort : cents ≤ 0 ∨ balance ≤ 0 →
      (rm.calculate_position_size today signal balance cents).2 = 0 := by
    intro h0
    simp only [RiskManager.calculate_position_size, if_pos h0]
  refine ⟨?_, hshort, hconcrete⟩
  by_cases h0 : cents ≤ 0 ∨ balance ≤ 0
  · rw [hshort h0]
    simp only [sizePosition_spec, if_pos h0]
  · have hcond := h0
    push_neg at h0
    obtain ⟨hc, hb⟩ := h0
    have hcQ : (0:ℚ) < (cents : ℚ) := by exact_mod_cast hc
    have hcost : (0:ℚ) < (cents : ℚ) / 100 := by positivity
    simp only [RiskManager.calculate_position_size, sizePosition_spec,
      reset_daily_of_eq rm today hdate, if_neg hcond]
    by_cases hbig : (1:ℚ) - (cents : ℚ) / 100 ≤ 0
    · rw [if_pos hbig]
      have hodds : (1 - (cents : ℚ) / 100) / ((cents : ℚ) / 100) ≤ 0 :=
        div_nonpos_of_nonpos_of_nonneg hbig (le_of_lt hcost)
      have hk0 : kellyFraction_spec rm.kelly_fraction signal.estimated_probability
          ((1 - (cents : ℚ) / 100) / ((cents : ℚ) / 100)) = 0 := by
        unfold kellyFraction_spec
        rw [if_neg]
        intro hcon
        exact absurd hcon.2.2 (not_lt.mpr hodds)
      rw [hk0, mul_zero, zero_div, Int.floor_zero]
      exact (max0_min5_of_first_nonpos _ _ _ _ _ (le_refl 0)).symm
    · rw [if_neg hbig]
      have hK : 0 ≤ balance * rm.kelly_criterion signal.estimated_probability
          ((1 - (cents : ℚ) / 100) / ((cents : ℚ) / 100)) / ((cents : ℚ) / 100) :=
        div_nonneg (mul_nonneg (le_of_lt hb) (kelly_criterion_nonneg rm _ _ hkf))
          (le_of_lt hcost)
      have hC : 0 ≤ rm.max_trade_cost / ((cents : ℚ) / 100) :=
        div_nonneg htc (le_of_lt hcost)
      have hD : 0 ≤ max 0 (balance * (rm.max_portfolio_exposure_pct / 100) -
          posSum rm.open_positions) / ((cents : ℚ) / 100) :=
        div_nonneg (le_max_left 0 _) (le_of_lt hcost)
      have hE : 0 ≤ max 0 (rm.max_daily_loss - |min 0 rm.daily_pnl.total_pnl|) /
          ((cents : ℚ) / 100) :=
        div_nonneg (le_max_left 0 _) (le_of_lt hcost)
      split_ifs
      rw [pyInt_of_nonneg hK, pyInt_of_nonneg hC, pyInt_of_nonneg hD,
        pyInt_of_nonneg hE, kellyFraction_spec_eq, htotal, abs_min_zero_eq]
      by_cases hrem : 0 ≤ rm.max_daily_loss - max 0 (-rm.daily_pnl.realized_pnl)
      · rw [max_eq_right hrem]
      · push_neg at hrem
        apply max0_min5_congr
        right
        constructor
        · rw [max_eq_left (le_of_lt hrem), zero_div, Int.floor_zero]
        · apply Int.floor_nonpos
          exact div_nonpos_of_nonpos_of_nonneg (le_of_lt hrem) (le_of_lt hcost)

/-- Witness for C2: the theorem instantiated at the spec's concrete example —
the default configuration, a current ledger, and the 0.70-probability signal
with balance $1000 and cost 50¢ sizes to exactly 50 contracts, matching the
spec formula. -/
theorem c2_position_sizing_witness :
    ((RiskManager.init 50 100 25 20 (1/2) "2026-10-12").calculate_position_size
        "2026-10-12" sizingExampleSignal 1000 50).2 =
      sizePosition_spec (RiskManager.init 50 100 25 20 (1/2) "2026-10-12")
        sizingExampleSignal 1000 50 ∧
    ((RiskManager.init 50 100 25 20 (1/2) "2026-10-12").calculate_position_size
        "2026-10-12" sizingExampleSignal 1000 50).2 = 50 := by
  have h := c2_position_sizing (RiskManager.init 50 100 25 20 (1/2) "2026-10-12")
    "2026-10-12" sizingExampleSignal 1000 50 rfl rfl (by norm_num [RiskManager.init])
    (by norm_num [RiskManager.init])
  exact ⟨h.1, h.2.2⟩

/-- Witness for C6: a fresh manager rejects the low-confidence signal with a
reason starting with "Confidence", and the rejection iff holds concretely. -/
theorem c6_validate_trade_witness :
    ((({} : RiskManager).validate_trade "" lowConfidenceSignal 1000 (55/100) (5/100)).2.1
      = false) ∧
    stringLeadsWith
      ((({} : RiskManager).validate_trade "" lowConfidenceSignal 1000 (55/100) (5/100)).2.2)
      "Confidence" = true := by
  have h := c6_validate_trade ({} : RiskManager) "" lowConfidenceSignal 1000 (55/100) (5/100)
    rfl rfl
  constructor
  · refine h.1.mpr (Or.inr (Or.inl ?_))
    norm_num [lowConfidenceSignal]
  · refine h.2.1 (by norm_num) ?_
    norm_num [lowConfidenceSignal]

/-- C7: build_order returns none when the derived cost-per-contract is outside
(0,100)¢ or the computed size is ≤ 0; any order it does return is a post-only
"gtc" limit order whose serialized payload carries exactly one price key,
matching the signal's side, with the derived cost as its value. -/
theorem c7_build_order (rm : RiskManager) (today : String) (signal : TradeSignal)
    (balance : ℚ) :
    (orderCostCents signal ≤ 0 ∨ 100 ≤ orderCostCents signal →
      (rm.build_order today signal balance).2 = none) ∧
    ((rm.calculate_position_size today signal balance (orderCostCents signal)).2 ≤ 0 →
      ¬(orderCostCents signal ≤ 0 ∨ 100 ≤ orderCostCents signal) →
      (rm.build_order today signal balance).2 = none) ∧
    (∀ o : OrderRequest, (rm.build_order today signal balance).2 = some o →
      o.post_only = true ∧ o.time_in_force = "gtc" ∧ o.order_type = .limit ∧
      (signal.side = .yes →
        payloadKeyCount o.to_api_payload "yes_price" = 1 ∧
        payloadKeyCount o.to_api_payload "no_price" = 0 ∧
        ("yes_price", PVal.i (orderCostCents signal)) ∈ o.to_api_payload) ∧
      (signal.side = .no →
        payloadKeyCount o.to_api_payload "no_price" = 1 ∧
        payloadKeyCount o.to_api_payload "yes_price" = 0 ∧
        ("no_price", PVal.i (orderCostCents signal)) ∈ o.to_api_payload)) := by
  refine ⟨?_, ?_, ?_⟩
  · intro h
    simp only [RiskManager.build_order, if_pos h]
  · intro hcount h
    simp only [RiskManager.build_order, if_neg h, if_pos hcount]
  · intro o ho
    simp only [RiskManager.build_order] at ho
    by_cases h : orderCostCents signal ≤ 0 ∨ 100 ≤ orderCostCents signal
    · rw [if_pos h] at ho
      exact absurd ho (by simp)
    · rw [if_neg h] at ho
      by_cases hcount :
          (rm.calculate_position_size today signal balance (orderCostCents signal)).2 ≤ 0
      · rw [if_pos hcount] at ho
        exact absurd ho (by simp)
      · rw [if_neg hcount] at ho
        have ho2 := (Option.some_inj.mp ho).symm
        subst ho2
        refine ⟨rfl, rfl, rfl, ?_, ?_⟩
        · intro hside
          simp [OrderRequest.to_api_payload, payloadKeyCount, hside]
        · intro hside
          simp [OrderRequest.to_api_payload, payloadKeyCount, hside]

/-- Witness for C7: a NO-side order at 60¢ builds concretely, and its payload
has the no-price key exactly once, no yes-price key, and value 60. -/
theorem c7_build_order_witness :
    ∃ o : OrderRequest,
      ((RiskManager.init 50 100 25 20 (1/2) "d").build_order "d" noSideSignal 1000).2 =
        some o ∧
      o.post_only = true ∧ o.time_in_force = "gtc" ∧
      payloadKeyCount o.to_api_payload "no_price" = 1 ∧
      payloadKeyCount o.to_api_payload "yes_price" = 0 ∧
      ("no_price", PVal.i 60) ∈ o.to_api_payload := by
  have hbuild :
      ((RiskManager.init 50 100 25 20 (1/2) "d").build_order "d" noSideSignal 1000).2 =
        some { ticker := "T", side := .no, action := .buy, count := 41,
               order_type := .limit, yes_price := none, no_price := some 60,
               client_order_id := "", time_in_force := "gtc", buy_max_cost := none,
               post_only := true } := by
    norm_num [RiskManager.build_order, orderCostCents, RiskManager.calculate_position_size,
      RiskManager.reset_daily_if_needed, RiskManager.init, RiskManager.kelly_criterion,
      pyInt, posSum, DailyPnL.total_pnl, noSideSignal]
    decide
  have h := (c7_build_order (RiskManager.init 50 100 25 20 (1/2) "d") "d"
    noSideSignal 1000).2.2 _ hbuild
  have hcost : orderCostCents noSideSignal = 60 := by decide
  refine ⟨_, hbuild, h.1, h.2.1, ?_, ?_, ?_⟩
  · exact (h.2.2.2.2 rfl).1
  · exact (h.2.2.2.2 rfl).2.1
  · have := (h.2.2.2.2 rfl).2.2
    rwa [hcost] at this

theorem requestAttempts_sent_le (base : ℚ) (h : Headers) (outcomes : ℕ → AttemptOutcome) :
    ∀ (fuel attempt : ℕ) (hasConn : Bool) (acc : ℚ) (sent : List Headers),
      (requestAttempts base h outcomes fuel attempt hasConn acc sent).headersSent.length ≤
        sent.length + fuel := by
  intro fuel
  induction fuel with
  | zero =>
    intro attempt hasConn acc sent
    simp [requestAttempts]
  | succ n ih =>
    intro attempt hasConn acc sent
    simp only [requestAttempts]
    cases houtcome : outcomes attempt with
    | connError =>
      dsimp only
      calc (requestAttempts base h outcomes n (attempt + 1) true
              (acc + base * 2 ^ attempt) (sent ++ [h])).headersSent.length
          ≤ (sent ++ [h]).length + n := ih (attempt + 1) true _ _
        _ = sent.length + (n + 1) := by
          rw [List.length_append, List.length_singleton]
          omega
    | http s =>
      dsimp only
      by_cases h429 : s = 429
      · rw [if_pos h429]
        calc (requestAttempts base h outcomes n (attempt + 1) hasConn
                (acc + base * 2 ^ attempt) (sent ++ [h])).headersSent.length
            ≤ (sent ++ [h]).length + n := ih (attempt + 1) hasConn _ _
          _ = sent.length + (n + 1) := by
            rw [List.length_append, List.length_singleton]
            omega
      · rw [if_neg h429]
        split_ifs <;> simp

theorem acquire_of_refill_ge (b : RateLimiter) (now : ℚ)
    (h1 : 1 ≤ (b.refill now).tokens) :
    b.acquire now =
      some ({ max_per_second := b.max_per_second,
              tokens := (b.refill now).tokens - 1, last_refill := now }, 0) := by
  simp only [RateLimiter.acquire, RateLimiter.acquireAux, if_pos h1]
  rfl

theorem acquire_of_refill_lt (b : RateLimiter) (now : ℚ)
    (hcap : 1 ≤ b.max_per_second) (h1 : (b.refill now).tokens < 1) :
    b.acquire now =
      some ({ max_per_second := b.max_per_second, tokens := 0,
              last_refill := now + (1 - (b.refill now).tokens) / b.max_per_second },
            (1 - (b.refill now).tokens) / b.max_per_second) := by
  have hcappos : (0:ℚ) < b.max_per_second := lt_of_lt_of_le one_pos hcap
  have hb1cap : (b.refill now).max_per_second = b.max_per_second := rfl
  have hb1last : (b.refill now).last_refill = now := rfl
  have hrefill2 :
      ((b.refill now).refill (now + (1 - (b.refill now).tokens) / b.max_per_second)).tokens
        = 1 := by
    show min b.max_per_second
        ((b.refill now).tokens +
          (now + (1 - (b.refill now).tokens) / b.max_per_second - now) * b.max_per_second)
      = 1
    rw [add_sub_cancel_left, div_mul_cancel₀ _ (ne_of_gt hcappos), add_sub_cancel]
    exact min_eq_right hcap
  simp only [RateLimiter.acquire, RateLimiter.acquireAux, if_neg (not_le.mpr h1), hb1cap]
  rw [if_pos (le_of_eq hrefill2.symm)]
  dsimp only
  rw [hrefill2]
  simp only [RateLimiter.refill, Option.some.injEq, Prod.mk.injEq, RateLimiter.mk.injEq]
  norm_num

theorem acquireSeq_succ_of_acquire (n : ℕ) (b : RateLimiter) (now : ℚ)
    (b1 : RateLimiter) (s1 : ℚ) (h : b.acquire now = some (b1, s1)) :
    acquireSeq (n + 1) b now =
      Option.bind (acquireSeq n b1 now) (fun q => some (q.1, s1 + q.2)) := by
  show Option.bind (b.acquire now) (fun p =>
      Option.bind (acquireSeq n p.1 now) (fun q => some (q.1, p.2 + q.2))) =
    Option.bind (acquireSeq n b1 now) (fun q => some (q.1, s1 + q.2))
  rw [h]
  rfl

theorem acquireSeq_drain (cap t0 : ℚ) :
    ∀ (j : ℕ) (t : ℚ), (j : ℚ) ≤ t → t ≤ cap →
      acquireSeq j { max_per_second := cap, tokens := t, last_refill := t0 } t0 =
        some ({ max_per_second := cap, tokens := t - j, last_refill := t0 }, 0) := by
  intro j
  induction j with
  | zero =>
    intro t hj hc
    rw [Nat.cast_zero, sub_zero]
    rfl
  | succ n ih =>
    intro t hj hc
    have hn0 : (0:ℚ) ≤ (n : ℚ) := Nat.cast_nonneg n
    have hj1 : (n : ℚ) + 1 ≤ t := by push_cast at hj; linarith
    have h1t : (1:ℚ) ≤ t := by linarith
    have hrefill :
        (({ max_per_second := cap, tokens := t, last_refill := t0 } :
            RateLimiter).refill t0).tokens = t := by
      show min cap (t + (t0 - t0) * cap) = t
      rw [sub_self, zero_mul, add_zero]
      exact min_eq_right hc
    have hacq := acquire_of_refill_ge
      { max_per_second := cap, tokens := t, last_refill := t0 } t0
      (by rw [hrefill]; exact h1t)
    rw [hrefill] at hacq
    have hih := ih (t - 1) (by linarith) (by linarith)
    rw [acquireSeq_succ_of_acquire n _ t0 _ _ hacq, hih]
    rw [Option.some_bind, Option.some.injEq, Prod.mk.injEq, RateLimiter.mk.injEq]
    refine ⟨⟨rfl, ?_, rfl⟩, by norm_num⟩
    push_cast
    ring

/-- C8: the token bucket refills linearly in elapsed time × rate, capped at
capacity; acquire consumes one token and returns without sleeping when the
refilled bucket holds ≥ 1 token, and otherwise sleeps exactly
(1 − tokens)/rate before retrying (then succeeding); every successful acquire
leaves 0 ≤ tokens ≤ capacity; and from a full bucket of integer capacity N,
N immediate acquires all succeed with zero total sleep while the (N+1)th
blocks for exactly 1/rate seconds. -/
theorem c8_token_bucket :
    (∀ (b : RateLimiter) (now : ℚ),
      (b.refill now).tokens =
        min b.max_per_second (b.tokens + (now - b.last_refill) * b.max_per_second)) ∧
    (∀ (b : RateLimiter) (now : ℚ), 1 ≤ (b.refill now).tokens →
      b.acquire now =
        some ({ max_per_second := b.max_per_second,
                tokens := (b.refill now).tokens - 1, last_refill := now }, 0)) ∧
    (∀ (b : RateLimiter) (now : ℚ), 1 ≤ b.max_per_second → (b.refill now).tokens < 1 →
      b.acquire now =
        some ({ max_per_second := b.max_per_second, tokens := 0,
                last_refill := now + (1 - (b.refill now).tokens) / b.max_per_second },
              (1 - (b.refill now).tokens) / b.max_per_second)) ∧
    (∀ (b : RateLimiter) (now : ℚ) (b1 : RateLimiter) (slept : ℚ),
      1 ≤ b.max_per_second →
      b.acquire now = some (b1, slept) →
      0 ≤ b1.tokens ∧ b1.tokens ≤ b1.max_per_second ∧
        b1.max_per_second = b.max_per_second) ∧
    (∀ (N : ℕ) (t0 : ℚ), 1 ≤ N →
      acquireSeq N (RateLimiter.init (N : ℚ) t0) t0 =
        some ({ max_per_second := (N : ℚ), tokens := 0, last_refill := t0 }, 0) ∧
      RateLimiter.acquire { max_per_second := (N : ℚ), tokens := 0, last_refill := t0 } t0 =
        some ({ max_per_second := (N : ℚ), tokens := 0,
                last_refill := t0 + 1 / (N : ℚ) }, 1 / (N : ℚ))) := by
  refine ⟨fun b now => rfl, acquire_of_refill_ge, acquire_of_refill_lt, ?_, ?_⟩
  · intro b now b1 slept hcap hacq
    have hcap0 : (0:ℚ) ≤ b.max_per_second := by linarith
    by_cases hge : 1 ≤ (b.refill now).tokens
    · rw [acquire_of_refill_ge b now hge] at hacq
      obtain ⟨hb1, -⟩ := Prod.mk.injEq .. ▸ Option.some_inj.mp hacq
      rw [← hb1]
      refine ⟨by simpa using hge, ?_, rfl⟩
      have : (b.refill now).tokens ≤ b.max_per_second := min_le_left _ _
      simpa using by linarith
    · rw [acquire_of_refill_lt b now hcap (not_le.mp hge)] at hacq
      obtain ⟨hb1, -⟩ := Prod.mk.injEq .. ▸ Option.some_inj.mp hacq
      rw [← hb1]
      exact ⟨le_refl 0, hcap0, rfl⟩
  · intro N t0 hN
    have hNQ : (1:ℚ) ≤ (N : ℚ) := by exact_mod_cast hN
    have hN0 : (0:ℚ) ≤ (N : ℚ) := by linarith
    constructor
    · have h := acquireSeq_drain (N : ℚ) t0 N (N : ℚ) (le_refl _) (le_refl _)
      rw [sub_self] at h
      exact h
    · have hr : (({ max_per_second := (N : ℚ), tokens := 0, last_refill := t0 } :
          RateLimiter).refill t0).tokens = 0 := by
        show min (N : ℚ) (0 + (t0 - t0) * (N : ℚ)) = 0
        rw [sub_self, zero_mul, add_zero]
        exact min_eq_right hN0
      have h := acquire_of_refill_lt
        { max_per_second := (N : ℚ), tokens := 0, last_refill := t0 } t0 hNQ
        (by rw [hr]; norm_num)
      rw [hr, sub_zero] at h
      exact h

/-- Witness for C8: a full bucket of capacity 2 — two immediate acquires
drain it with zero sleep and the third blocks for 1/2 second. -/
theorem c8_token_bucket_witness :
    acquireSeq 2 (RateLimiter.init ((2:ℕ) : ℚ) 0) 0 =
        some ({ max_per_second := ((2:ℕ) : ℚ), tokens := 0, last_refill := 0 }, 0) ∧
    RateLimiter.acquire { max_per_second := ((2:ℕ) : ℚ), tokens := 0, last_refill := 0 } 0 =
        some ({ max_per_second := ((2:ℕ) : ℚ), tokens := 0,
                last_refill := 0 + 1 / ((2:ℕ) : ℚ) }, 1 / ((2:ℕ) : ℚ)) :=
  c8_token_bucket.2.2.2.2 2 0 (by norm_num)

/-- C1 (refuting evidence): on an authenticated request whose first attempt
returns HTTP 429, the retry (a second attempt at a later wall-clock time)
is sent with the identical auth headers — the same timestamp, hence the same
signed message — because _request builds the header dict once before the
retry loop. The claim that every retry regenerates the timestamp and
recomputes the signature is false on this input. -/
theorem c1_auth_headers_reused_across_retries :
    ((kalshiRequest "key-id" true true 1700000000000 "GET" "/portfolio/balance"
        oneRateLimitThenOk).result = RequestResult.success 200) ∧
    ((kalshiRequest "key-id" true true 1700000000000 "GET" "/portfolio/balance"
        oneRateLimitThenOk).headersSent.length = 2) ∧
    ((kalshiRequest "key-id" true true 1700000000000 "GET" "/portfolio/balance"
        oneRateLimitThenOk).headersSent.map Headers.timestamp =
      [some 1700000000000, some 1700000000000]) := by
  refine ⟨?_, ?_, ?_⟩ <;>
    simp [kalshiRequest, requestAttempts, oneRateLimitThenOk, get_auth_headers,
      Headers.timestamp, client_max_retries]

/-- C3: the retry loop makes at most 3 attempts; a status ≥ 400 other than 429
on the first attempt raises a structured API error immediately, with no
retry and no backoff; [429, 429, 200] succeeds on the third attempt with
cumulative backoff base + 2·base; three 429s surface the synthetic
max-retries error; a connection error is retried with backoff (here
succeeding on attempt two after sleeping base), and three connection errors
surface the last captured transport error. -/
theorem c3_retry_policy :
    (∀ (key : String) (hpk auth : Bool) (ts : ℕ) (method path : String)
        (outcomes : ℕ → AttemptOutcome),
      (kalshiRequest key hpk auth ts method path outcomes).headersSent.length ≤ 3) ∧
    (∀ (key : String) (hpk auth : Bool) (ts : ℕ) (method path : String)
        (outcomes : ℕ → AttemptOutcome) (s : ℕ),
      outcomes 0 = .http s → 400 ≤ s → s ≠ 429 →
      (kalshiRequest key hpk auth ts method path outcomes).result =
          RequestResult.apiError s ∧
        (kalshiRequest key hpk auth ts method path outcomes).totalSleep = 0 ∧
        (kalshiRequest key hpk auth ts method path outcomes).headersSent.length = 1) ∧
    ((kalshiRequest "k" true true 0 "GET" "/p" twoRateLimitsThenOk).result =
        RequestResult.success 200 ∧
      (kalshiRequest "k" true true 0 "GET" "/p" twoRateLimitsThenOk).headersSent.length = 3 ∧
      (kalshiRequest "k" true true 0 "GET" "/p" twoRateLimitsThenOk).totalSleep =
        client_base_backoff + 2 * client_base_backoff) ∧
    ((kalshiRequest "k" true true 0 "GET" "/p" alwaysRateLimited).result =
      RequestResult.maxRetriesError) ∧
    ((kalshiRequest "k" true true 0 "GET" "/p" oneConnErrorThenOk).result =
        RequestResult.success 200 ∧
      (kalshiRequest "k" true true 0 "GET" "/p" oneConnErrorThenOk).headersSent.length = 2 ∧
      (kalshiRequest "k" true true 0 "GET" "/p" oneConnErrorThenOk).totalSleep =
        client_base_backoff) ∧
    ((kalshiRequest "k" true true 0 "GET" "/p" alwaysConnError).result =
      RequestResult.connFailure) := by
  refine ⟨?_, ?_, ?_, ?_, ?_, ?_⟩
  · intro key hpk auth ts method path outcomes
    exact requestAttempts_sent_le client_base_backoff _ outcomes 3 0 false 0 []
  · intro key hpk auth ts method path outcomes s h0 h400 h429
    refine ⟨?_, ?_, ?_⟩ <;>
      simp [kalshiRequest, requestAttempts, client_max_retries, h0, h429, h400]
  · refine ⟨?_, ?_, ?_⟩ <;>
      norm_num [kalshiRequest, requestAttempts, client_max_retries, client_base_backoff,
        twoRateLimitsThenOk]
  · norm_num [kalshiRequest, requestAttempts, client_max_retries, alwaysRateLimited]
  · refine ⟨?_, ?_, ?_⟩ <;>
      norm_num [kalshiRequest, requestAttempts, client_max_retries, client_base_backoff,
        oneConnErrorThenOk]
  · norm_num [kalshiRequest, requestAttempts, client_max_retries, alwaysConnError]

/-- Witness for C3: the immediate-failure clause applied at a request whose
every attempt would return HTTP 500 — it raises apiError 500 after exactly
one attempt with zero backoff. -/
theorem c3_retry_policy_witness :
    (kalshiRequest "k" true true 0 "GET" "/markets" (fun _ => AttemptOutcome.http 500)).result =
        RequestResult.apiError 500 ∧
      (kalshiRequest "k" true true 0 "GET" "/markets"
          (fun _ => AttemptOutcome.http 500)).totalSleep = 0 ∧
      (kalshiRequest "k" true true 0 "GET" "/markets"
          (fun _ => AttemptOutcome.http 500)).headersSent.length = 1 :=
  c3_retry_policy.2.1 "k" true true 0 "GET" "/markets" (fun _ => AttemptOutcome.http 500)
    500 rfl (by decide) (by decide)

theorem reset_unrealized (rm : RiskManager) (t : String)
    (h : rm.daily_pnl.unrealized_pnl = 0) :
    (rm.reset_daily_if_needed t).daily_pnl.unrealized_pnl = 0 := by
  unfold RiskManager.reset_daily_if_needed
  split_ifs <;> simp [h]

theorem calc_size_state (rm : RiskManager) (t : String) (sg : TradeSignal) (b : ℚ)
    (c : ℤ) :
    (rm.calculate_position_size t sg b c).1 = rm.reset_daily_if_needed t := by
  unfold RiskManager.calculate_position_size
  dsimp only
  split_ifs <;> rfl

theorem validate_state (rm : RiskManager) (t : String) (sg : TradeSignal)
    (b mc me : ℚ) :
    (rm.validate_trade t sg b mc me).1 = rm.reset_daily_if_needed t := by
  unfold RiskManager.validate_trade
  dsimp only
  split_ifs <;> rfl

theorem summary_state (rm : RiskManager) (t : String) :
    (rm.get_daily_summary t).1 = rm.reset_daily_if_needed t := rfl

theorem build_state (rm : RiskManager) (t : String) (sg : TradeSignal) (b : ℚ) :
    (rm.build_order t sg b).1 = rm ∨
    (rm.build_order t sg b).1 = rm.reset_daily_if_needed t := by
  unfold RiskManager.build_order
  dsimp only
  split_ifs <;>
    first
      | exact Or.inl rfl
      | exact Or.inr (calc_size_state rm t sg b _)

theorem record_trade_unrealized (rm : RiskManager) (t tk : String) (c p : ℚ)
    (h : rm.daily_pnl.unrealized_pnl = 0) :
    (rm.record_trade t tk c p).daily_pnl.unrealized_pnl = 0 := by
  unfold RiskManager.record_trade
  show (rm.reset_daily_if_needed t).daily_pnl.unrealized_pnl = 0
  exact reset_unrealized rm t h

theorem update_position_unrealized (rm : RiskManager) (tk : String) (e : ℚ)
    (h : rm.daily_pnl.unrealized_pnl = 0) :
    (rm.update_position tk e).daily_pnl.unrealized_pnl = 0 := by
  unfold RiskManager.update_position
  split_ifs <;> exact h

theorem RMOp_apply_unrealized (rm : RiskManager) (op : RMOp)
    (h : rm.daily_pnl.unrealized_pnl = 0) :
    (RMOp.apply rm op).daily_pnl.unrealized_pnl = 0 := by
  cases op with
  | calcSize t sg b c =>
    rw [RMOp.apply, calc_size_state]
    exact reset_unrealized rm t h
  | validate t sg b mc me =>
    rw [RMOp.apply, validate_state]
    exact reset_unrealized rm t h
  | build t sg b =>
    rcases build_state rm t sg b with h1 | h1
    · rw [RMOp.apply, h1]
      exact h
    · rw [RMOp.apply, h1]
      exact reset_unrealized rm t h
  | record t tk c p =>
    rw [RMOp.apply]
    exact record_trade_unrealized rm t tk c p h
  | updatePos tk e =>
    rw [RMOp.apply]
    exact update_position_unrealized rm tk e h
  | summary t =>
    rw [RMOp.apply, summary_state]
    exact reset_unrealized rm t h

/-- C10: no RiskManager operation ever writes unrealized_pnl, so along every
operation sequence from a fresh manager it stays 0 and total_pnl — the value
the code actually compares against the daily-loss limit — always equals
realized_pnl. -/
theorem c10_unrealized_invariant (mdl : ℚ) (mps : ℤ) (mtc mpe kf : ℚ) (d0 : String)
    (ops : List RMOp) :
    ((ops.foldl RMOp.apply
        (RiskManager.init mdl mps mtc mpe kf d0)).daily_pnl.unrealized_pnl = 0) ∧
    ((ops.foldl RMOp.apply
        (RiskManager.init mdl mps mtc mpe kf d0)).daily_pnl.total_pnl =
      (ops.foldl RMOp.apply
        (RiskManager.init mdl mps mtc mpe kf d0)).daily_pnl.realized_pnl) := by
  have key : ∀ (l : List RMOp) (rm : RiskManager), rm.daily_pnl.unrealized_pnl = 0 →
      (l.foldl RMOp.apply rm).daily_pnl.unrealized_pnl = 0 := by
    intro l
    induction l with
    | nil =>
      intro rm h
      simpa using h
    | cons op rest ih =>
      intro rm h
      exact ih _ (RMOp_apply_unrealized rm op h)
  have h0 : (RiskManager.init mdl mps mtc mpe kf d0).daily_pnl.unrealized_pnl = 0 := rfl
  have h1 := key ops _ h0
  exact ⟨h1, by rw [DailyPnL.total_pnl, h1, add_zero]⟩

theorem insertByEVDesc_length (s : TradeSignal) :
    ∀ l : List TradeSignal, (insertByEVDesc s l).length = l.length + 1 := by
  intro l
  induction l with
  | nil => rfl
  | cons t rest ih =>
    unfold insertByEVDesc
    split_ifs
    · rfl
    · simp [ih]

theorem sortByEVDesc_length (l : List TradeSignal) :
    (sortByEVDesc l).length = l.length := by
  unfold sortByEVDesc
  induction l with
  | nil => rfl
  | cons t rest ih => simp [List.foldr_cons, insertByEVDesc_length, ih]

theorem processSignals_scan_only (env : CycleEnv) :
    ∀ (sigs : List TradeSignal) (rm : RiskManager) (balance : ℚ)
      (subs : List SubmitOutcome) (trades : ℕ) (trace : List RMCall),
      processSignals env sigs rm balance true subs trades trace =
        { trades := trades + sigs.length, rm := rm, rmTrace := trace } := by
  intro sigs
  induction sigs with
  | nil =>
    intro rm balance subs trades trace
    simp [processSignals]
  | cons s rest ih =>
    intro rm balance subs trades trace
    unfold processSignals
    rw [if_pos rfl, ih]
    congr 1
    simp
    omega

theorem cycleAfterStatus_scan_only (env : CycleEnv) (rm0 : RiskManager) :
    cycleAfterStatus env rm0 true =
      { trades := (collectSignals env.strategyResults).length, rm := rm0,
        rmTrace := [] } := by
  unfold cycleAfterStatus
  rcases hbal : env.balanceR with _ | b <;>
    dsimp only <;>
    rcases hemp : (collectSignals env.strategyResults).isEmpty with h | h
  all_goals
    first
      | (rw [if_pos rfl]
         have hnil : collectSignals env.strategyResults = [] := by
           rwa [← List.isEmpty_iff]
         rw [hnil]
         rfl)
      | (rw [if_neg Bool.false_ne_true,
           processSignals_scan_only env _ rm0 _ env.submits 0 [],
           sortByEVDesc_length]
         simp)

theorem cycleAfterStatus_balance_none (env : CycleEnv) (rm0 : RiskManager)
    (h : env.balanceR = none) (x y : Bool) :
    cycleAfterStatus env rm0 x = cycleAfterStatus env rm0 y := by
  unfold cycleAfterStatus
  rw [h]

/-- C9: a cycle whose exchange-status response reports the exchange inactive
returns 0 trades, leaves the RiskManager untouched and never calls it; a
paused exchange or a failed balance fetch makes the cycle behave exactly as
if scan-only had been requested, for this cycle's inputs only; and a
scan-only cycle that reaches the signal loop counts every collected signal
as a would-be trade with an empty RiskManager call trace and unchanged
state. -/
theorem c9_cycle_orchestration (env : CycleEnv) (rm0 : RiskManager) (scan_only : Bool) :
    (∀ st : ExchangeStatus, env.statusR = some st → st.exchange_active = false →
      run_trading_cycle env rm0 scan_only =
        { trades := 0, rm := rm0, rmTrace := [] }) ∧
    (∀ st : ExchangeStatus, env.statusR = some st → st.exchange_active = true →
      st.trading_active = false →
      run_trading_cycle env rm0 false = run_trading_cycle env rm0 true) ∧
    (env.balanceR = none →
      run_trading_cycle env rm0 false = run_trading_cycle env rm0 true) ∧
    ((env.statusR = none ∨ ∃ st : ExchangeStatus,
        env.statusR = some st ∧ st.exchange_active = true) →
      run_trading_cycle env rm0 true =
        { trades := (collectSignals env.strategyResults).length, rm := rm0,
          rmTrace := [] }) := by
  refine ⟨?_, ?_, ?_, ?_⟩
  · intro st hst hact
    unfold run_trading_cycle
    rw [hst]
    dsimp only
    rw [if_pos hact]
  · intro st hst hact htr
    unfold run_trading_cycle
    rw [hst]
    dsimp only
    simp [hact, htr]
  · intro hbal
    unfold run_trading_cycle
    rcases hst : env.statusR with _ | st
    · exact cycleAfterStatus_balance_none env rm0 hbal false true
    · dsimp only
      split_ifs <;>
        first
          | rfl
          | exact cycleAfterStatus_balance_none env rm0 hbal _ _
  · intro h
    rcases h with h | ⟨st, hst, hact⟩
    · unfold run_trading_cycle
      rw [h]
      exact cycleAfterStatus_scan_only env rm0
    · unfold run_trading_cycle
      rw [hst]
      dsimp only
      rw [show (if st.trading_active = false then true else true) = true from ite_self true]
      rw [if_neg (show ¬st.exchange_active = false by simp [hact])]
      exact cycleAfterStatus_scan_only env rm0

/-- Witness for C9: with the balance fetch failing, a cycle requested without
scan-only still behaves as scan-only — both collected signals are counted as
would-be trades, with no RiskManager call and unchanged state. -/
theorem c9_cycle_orchestration_witness :
    run_trading_cycle scanCycleEnv ({} : RiskManager) false =
      { trades := 2, rm := ({} : RiskManager), rmTrace := [] } := by
  have h := c9_cycle_orchestration scanCycleEnv ({} : RiskManager) false
  have h1 := h.2.2.1 rfl
  have h2 := h.2.2.2
    (Or.inr ⟨{ exchange_active := true, trading_active := true }, rfl, rfl⟩)
  rw [h1, h2]
  rfl
